import Mathlib

/-!
Verification development for the qiskit-community-tutorials repository.

The repository is a set of Jupyter notebooks.  The Python functions they
define (`show_results`, `execute_locally`, `execute_remotely`, `new_circuit`,
`wine`, `HS_product`) and the tomography cells of
`machine_learning/vqc_feature_map_comparison.ipynb` (Pauli matrices,
projectors, the measurement matrix `M`, and the linear-inversion matrices)
are shallowly embedded below.  External library calls (qiskit, numpy,
sklearn, matplotlib) are modelled by their contracts: they appear either as
environment parameters or, for `np.linalg.inv`, as closed-form matrices
verified to be two-sided inverses of the matrices the notebook passes in.
Machine floats of the notebook are modelled by exact
rational arithmetic, which is the reading "over exact arithmetic" used by
the algebraic claims.
-/

/-- Complex numbers with rational coordinates: the exact-arithmetic model of
the numpy complex scalars used in the tomography cells. -/
structure CQ where
  re : ℚ
  im : ℚ
deriving DecidableEq, Repr

namespace CQ

theorem ext_cq {a b : CQ} (h1 : a.re = b.re) (h2 : a.im = b.im) : a = b := by
  cases a; cases b; simp_all

instance : Zero CQ := ⟨⟨0, 0⟩⟩
instance : One CQ := ⟨⟨1, 0⟩⟩
instance : Add CQ := ⟨fun a b => ⟨a.re + b.re, a.im + b.im⟩⟩
instance : Neg CQ := ⟨fun a => ⟨-a.re, -a.im⟩⟩
instance : Mul CQ := ⟨fun a b => ⟨a.re * b.re - a.im * b.im, a.re * b.im + a.im * b.re⟩⟩

@[simp] theorem zero_re : (0 : CQ).re = 0 := rfl
@[simp] theorem zero_im : (0 : CQ).im = 0 := rfl
@[simp] theorem one_re : (1 : CQ).re = 1 := rfl
@[simp] theorem one_im : (1 : CQ).im = 0 := rfl
@[simp] theorem add_re (a b : CQ) : (a + b).re = a.re + b.re := rfl
@[simp] theorem add_im (a b : CQ) : (a + b).im = a.im + b.im := rfl
@[simp] theorem neg_re (a : CQ) : (-a).re = -a.re := rfl
@[simp] theorem neg_im (a : CQ) : (-a).im = -a.im := rfl
@[simp] theorem mul_re (a b : CQ) : (a * b).re = a.re * b.re - a.im * b.im := rfl
@[simp] theorem mul_im (a b : CQ) : (a * b).im = a.re * b.im + a.im * b.re := rfl

instance : CommRing CQ where
  nsmul := nsmulRec
  zsmul := zsmulRec
  add_assoc a b c := by apply ext_cq <;> simp <;> ring
  zero_add a := by apply ext_cq <;> simp
  add_zero a := by apply ext_cq <;> simp
  add_comm a b := by apply ext_cq <;> simp <;> ring
  neg_add_cancel a := by apply ext_cq <;> simp
  mul_assoc a b c := by apply ext_cq <;> simp <;> ring
  one_mul a := by apply ext_cq <;> simp
  mul_one a := by apply ext_cq <;> simp
  left_distrib a b c := by apply ext_cq <;> simp <;> ring
  right_distrib a b c := by apply ext_cq <;> simp <;> ring
  zero_mul a := by apply ext_cq <;> simp
  mul_zero a := by apply ext_cq <;> simp
  mul_comm a b := by apply ext_cq <;> simp <;> ring

/-- Complex conjugate, the scalar action of `np.conj`. -/
def conj (a : CQ) : CQ := ⟨a.re, -a.im⟩

end CQ

/-- The imaginary unit `1j` of the notebook. -/
def imagUnit : CQ := ⟨0, 1⟩

/-- `0.5` of the notebook, as an exact rational scalar. -/
def half : CQ := ⟨1/2, 0⟩

/-- `np.conj(A).T`: conjugate transpose. -/
def dagger {m n : ℕ} (A : Matrix (Fin m) (Fin n) CQ) : Matrix (Fin n) (Fin m) CQ :=
  Matrix.of fun i j => CQ.conj (A j i)

/-- Row-major `p.flatten()` of a 2x2 matrix. -/
def flatten2 (p : Matrix (Fin 2) (Fin 2) CQ) : Fin 4 → CQ :=
  fun k => p ⟨k.val / 2, by omega⟩ ⟨k.val % 2, by omega⟩

/-- Row-major `p.flatten()` of a 4x4 matrix. -/
def flatten4 (p : Matrix (Fin 4) (Fin 4) CQ) : Fin 16 → CQ :=
  fun k => p ⟨k.val / 4, by omega⟩ ⟨k.val % 4, by omega⟩

/-- `np.reshape(v, (4, 4))`, row-major. -/
def reshape4 (v : Fin 16 → CQ) : Matrix (Fin 4) (Fin 4) CQ :=
  Matrix.of fun i j => v ⟨4 * i.val + j.val, by omega⟩

/-- `np.kron` of two 2x2 matrices. -/
def kron (A B : Matrix (Fin 2) (Fin 2) CQ) : Matrix (Fin 4) (Fin 4) CQ :=
  Matrix.of fun i j =>
    A ⟨i.val / 2, by omega⟩ ⟨j.val / 2, by omega⟩ *
      B ⟨i.val % 2, by omega⟩ ⟨j.val % 2, by omega⟩

/-! Pauli matrices `I, X, Y, Z` from the tomography notebook.  `I` is named
`Id2` because `I` collides with ambient notation once `Matrix` lemmas are in
scope; all other source names are kept. -/

/-- `I = np.array([[1,0],[0,1]])`. -/
def Id2 : Matrix (Fin 2) (Fin 2) CQ := !![1, 0; 0, 1]

/-- `X = np.array([[0,1],[1,0]])`. -/
def X : Matrix (Fin 2) (Fin 2) CQ := !![0, 1; 1, 0]

/-- `Y = np.array([[0,-1j],[1j,0]])`. -/
def Y : Matrix (Fin 2) (Fin 2) CQ := !![0, -imagUnit; imagUnit, 0]

/-- `Z = np.array([[1,0],[0,-1]])`. -/
def Z : Matrix (Fin 2) (Fin 2) CQ := !![1, 0; 0, -1]

/-- `def HS_product(A,B): return 0.5*np.trace(np.conj(B).T @ A)` -/
def HS_product {n : ℕ} (A B : Matrix (Fin n) (Fin n) CQ) : CQ :=
  half * (dagger B * A).trace

/-! The six Pauli-basis projectors of the tomography notebook. -/

/-- `PX0 = 0.5*np.array([[1, 1], [1, 1]])`. -/
def PX0 : Matrix (Fin 2) (Fin 2) CQ := half • !![1, 1; 1, 1]

/-- `PX1 = 0.5*np.array([[1, -1], [-1, 1]])`. -/
def PX1 : Matrix (Fin 2) (Fin 2) CQ := half • !![1, -1; -1, 1]

/-- `PY0 = 0.5*np.array([[1, -1j], [1j, 1]])`. -/
def PY0 : Matrix (Fin 2) (Fin 2) CQ := half • !![1, -imagUnit; imagUnit, 1]

/-- `PY1 = 0.5*np.array([[1, 1j], [-1j, 1]])`. -/
def PY1 : Matrix (Fin 2) (Fin 2) CQ := half • !![1, imagUnit; -imagUnit, 1]

/-- `PZ0 = np.array([[1, 0], [0, 0]])`. -/
def PZ0 : Matrix (Fin 2) (Fin 2) CQ := !![1, 0; 0, 0]

/-- `PZ1 = np.array([[0, 0], [0, 1]])`. -/
def PZ1 : Matrix (Fin 2) (Fin 2) CQ := !![0, 0; 0, 1]

/-- `projectors = [PX0, PX1, PY0, PY1, PZ0, PZ1]`. -/
def projectors : List (Matrix (Fin 2) (Fin 2) CQ) := [PX0, PX1, PY0, PY1, PZ0, PZ1]

/-- `M = np.array([p.flatten() for p in projectors])`: the 6x4 measurement
matrix whose rows are the flattened projectors. -/
def M : Matrix (Fin 6) (Fin 4) CQ :=
  Matrix.of fun i k => flatten2 (projectors.get (Fin.cast (by rfl) i)) k

/-- `projectors_2 = [np.kron(p1, p2) for (p1, p2) in itertools.product(projectors, repeat = 2)]`:
the 36 two-qubit projectors, in the row-major order of `itertools.product`. -/
def projectors_2 : List (Matrix (Fin 4) (Fin 4) CQ) :=
  projectors.flatMap fun p1 => projectors.map fun p2 => kron p1 p2

/-- `M_2 = np.array([p.flatten() for p in projectors_2])`: the 36x16 two-qubit
measurement matrix. -/
def M_2 : Matrix (Fin 36) (Fin 16) CQ :=
  Matrix.of fun i k => flatten4 (projectors_2.get (Fin.cast (by rfl) i)) k

/-- `M_dg = np.conj(M).T`. -/
def M_dg : Matrix (Fin 4) (Fin 6) CQ := dagger M

/-- `M_dg_2 = np.conj(M_2).T`. -/
def M_dg_2 : Matrix (Fin 16) (Fin 36) CQ := dagger M_2

/-! `np.linalg.inv` is an external numpy routine; its contract is to return
the (unique) matrix inverse of its input.  The two inverses the notebook
requests, `np.linalg.inv(M_dg @ M)` and `np.linalg.inv(M_dg_2 @ M_2)`, are
modelled by the closed-form matrices below; the lemmas `MdgM_eval`,
`inv_MdgM_left`, `inv_MdgM_right`, `inv_MdgM_2_left` and `inv_MdgM_2_right`
verify that each is the genuine two-sided inverse of the matrix the
notebook passes in, which pins it as the unique value `np.linalg.inv`
denotes (exactly, since the inputs are exactly representable and the
inverses are rational).  The two-qubit inverse exploits the tensor
structure: `M_2` is, up to the index bijections `rowIdx` and `colIdx`
relating flattening orders, the Kronecker product of `M` with itself
(lemma `M2_kron`), so the inverse of `M_dg_2 @ M_2` is the correspondingly
reindexed Kronecker square of the one-qubit inverse. -/

/-- Modelled from the contract of `np.linalg.inv`: the inverse of
`M_dg @ M`, verified by `inv_MdgM_left` and `inv_MdgM_right`. -/
def inv_MdgM : Matrix (Fin 4) (Fin 4) CQ :=
  !![⟨2/3, 0⟩, 0, 0, ⟨-(1/3), 0⟩;
     0, 1, 0, 0;
     0, 0, 1, 0;
     ⟨-(1/3), 0⟩, 0, 0, ⟨2/3, 0⟩]

/-- `linear_inversion_matrix = np.linalg.inv(M_dg @ M) @ M_dg`. -/
def linear_inversion_matrix : Matrix (Fin 4) (Fin 6) CQ :=
  inv_MdgM * M_dg

/-- The bijection between the 36 rows of `M_2` and pairs of rows of `M`,
in the row-major order of `itertools.product(projectors, repeat=2)`. -/
def rowIdx : Fin 36 ≃ Fin 6 × Fin 6 where
  toFun i := (⟨i.val / 6, by omega⟩, ⟨i.val % 6, by omega⟩)
  invFun p := ⟨6 * p.1.val + p.2.val, by omega⟩
  left_inv := by decide
  right_inv := by decide

/-- The bijection between the 16 columns of `M_2` (row-major flattening of a
4x4 matrix) and pairs of columns of `M` (row-major flattenings of the two
2x2 Kronecker factors). -/
def colIdx : Fin 16 ≃ Fin 4 × Fin 4 where
  toFun k := (⟨2 * (k.val / 8) + k.val % 4 / 2, by omega⟩,
              ⟨2 * (k.val / 4 % 2) + k.val % 2, by omega⟩)
  invFun p := ⟨8 * (p.1.val / 2) + 4 * (p.2.val / 2) + 2 * (p.1.val % 2) + p.2.val % 2,
               by omega⟩
  left_inv := by decide
  right_inv := by decide

/-- Modelled from the contract of `np.linalg.inv`: the inverse of
`M_dg_2 @ M_2`, the reindexed Kronecker square of the one-qubit inverse,
verified by `inv_MdgM_2_left` and `inv_MdgM_2_right`. -/
def inv_MdgM_2 : Matrix (Fin 16) (Fin 16) CQ :=
  (Matrix.kroneckerMap (· * ·) inv_MdgM inv_MdgM).submatrix colIdx colIdx

/-- `linear_inversion_matrix_2 = np.linalg.inv(M_dg_2 @ M_2) @ M_dg_2`. -/
def linear_inversion_matrix_2 : Matrix (Fin 16) (Fin 36) CQ :=
  inv_MdgM_2 * M_dg_2

/-! Boolean matrix-equality checkers with controlled kernel reduction, used
to evaluate the concrete matrix identities. -/

/-- Pointwise boolean equality of two vectors over `Fin n`. -/
def vecEqB (n : ℕ) (v w : Fin n → CQ) : Bool :=
  (List.finRange n).all fun i => v i == w i

/-- Pointwise boolean equality of two matrices. -/
def matEqB (m n : ℕ) (A B : Matrix (Fin m) (Fin n) CQ) : Bool :=
  (List.finRange m).all fun i => vecEqB n (A i) (B i)

/-- The staged value of `M_dg * M` as a matrix. -/
def MdgM_const : Matrix (Fin 4) (Fin 4) CQ :=
  !![⟨2, 0⟩, 0, 0, ⟨1, 0⟩;
     0, 1, 0, 0;
     0, 0, 1, 0;
     ⟨1, 0⟩, 0, 0, ⟨2, 0⟩]

/-! ## Observable behaviour of the notebook helpers

`show_results`, `execute_locally`, `execute_remotely` and `new_circuit` are
defined identically in `w3_01.ipynb` and `IBMQ_setup.ipynb`.  Their calls
into the external SDK (simulation, job submission, status polling, drawing,
plotting) are modelled by environments recording the outcome of each
external call, and the helpers are embedded as functions from those
environments to the list of observable actions they perform.  `α` is the
type of circuits and `γ` the type of count dictionaries, both owned by the
external SDK. -/

/-- One observable action of a notebook helper.  Each constructor names the
source statement it stands for:
`printSimulation c` is `print("simulation: ", result_sim, result_counts)`,
`draw qc` is `draw(qc)`, `show_results c` is `show_results(result_counts)`,
`printDevice` is `print("Running on current least busy device: ", ...)`,
`printStatus s st` is the pair `print('Status @ {} seconds'.format(interval * lapse))`
and `print(job_exp.status())` inside the loop, `sleep s` is
`time.sleep(interval)`, `printFinalStatus st` is the `print(job_exp.status())`
after the loop, `printExperiment c` is `print("experiment: ", exp_result, result_counts)`,
and `printUnavailable` is `print("All devices are currently unavailable.")`. -/
inductive Ev (α γ : Type) where
  | printSimulation (counts : γ)
  | draw (qc : α)
  | show_results (counts : γ)
  | printDevice
  | printStatus (seconds : ℕ) (status : String)
  | sleep (seconds : ℕ)
  | printFinalStatus (status : String)
  | printExperiment (counts : γ)
  | printUnavailable
deriving DecidableEq

/-- Environment of `execute_locally`: the counts that
`execute(qc, backend_sim).result().get_counts(qc)` yields for a circuit. -/
structure LocalEnv (α γ : Type) where
  get_counts : α → γ

/-- `def execute_locally(qc, draw_circuit=False)` from the notebooks: run the
simulator, print the result, then either draw the circuit (if
`draw_circuit`) or show the result histogram (otherwise). -/
def execute_locally {α γ : Type} (qc : α) (draw_circuit : Bool) (env : LocalEnv α γ) :
    List (Ev α γ) :=
  let result_counts := env.get_counts qc
  Ev.printSimulation result_counts ::
    (if draw_circuit then [Ev.draw qc] else [Ev.show_results result_counts])

/-- The `while job_exp.status().name != 'DONE'` loop of `execute_remotely`,
with `lapse, interval = 0, 10` from the source (`interval` inlined as the
literal 10).  `status k` is the status name the `k`-th iteration's
`job_exp.status()` call reports (the notebook queries the status a few times
per iteration; one value per iteration is modelled).  `fuel` bounds how many
iterations are observed, since the source loop has no bound of its own:
`none` means the loop is still running after `fuel` iterations. -/
def waitLoop {α γ : Type} (status : ℕ → String) : ℕ → ℕ → Option (ℕ × List (Ev α γ))
  | 0, _ => none
  | fuel + 1, lapse =>
    if status lapse = "DONE" then some (lapse, [])
    else
      match waitLoop status fuel (lapse + 1) with
      | none => none
      | some (n, tr) =>
        some (n, Ev.printStatus (10 * lapse) (status lapse) :: Ev.sleep 10 :: tr)

/-- Environment of `execute_remotely`: the outcome of each external call it
makes.  A `..._ok = false` field means that call raises an exception; in
particular `status_ok k = false` means the `k`-th iteration's
`job_exp.status()` call itself raises, so the exception escapes the while
loop into the surrounding `try:` block. -/
structure RemoteEnv (α γ : Type) where
  draw_ok : Bool
  device_ok : Bool
  submit_ok : Bool
  status : ℕ → String
  status_ok : ℕ → Bool
  fuel : ℕ
  result_ok : Bool
  counts : γ
  show_ok : Bool

/-- The polling loop of `execute_remotely` with the failure mode of the
status call itself: `status_ok lapse = false` means the `lapse`-th
iteration's `job_exp.status()` call raises before any status name is
obtained, so the loop is abandoned mid-flight with the trace of the
completed iterations (`Except.error`); the exception is then caught by the
bare `except:` of `execute_remotely`.  When every status call succeeds this
loop agrees with `waitLoop` (lemma `waitLoopE_agrees`). -/
def waitLoopE {α γ : Type} (status_ok : ℕ → Bool) (status : ℕ → String) :
    ℕ → ℕ → Option (Except (List (Ev α γ)) (ℕ × List (Ev α γ)))
  | 0, _ => none
  | fuel + 1, lapse =>
    if status_ok lapse = false then some (Except.error [])
    else if status lapse = "DONE" then some (Except.ok (lapse, []))
    else
      match waitLoopE status_ok status fuel (lapse + 1) with
      | none => none
      | some (Except.error tr) =>
        some (Except.error (Ev.printStatus (10 * lapse) (status lapse) :: Ev.sleep 10 :: tr))
      | some (Except.ok (n, tr)) =>
        some (Except.ok (n, Ev.printStatus (10 * lapse) (status lapse) :: Ev.sleep 10 :: tr))

/-- `def execute_remotely(qc, draw_circuit=False)` from the notebooks.
`draw(qc)` runs before the `try:` block, so its exception propagates
(`some (Except.error ())`).  Every exception inside the `try:` block —
device selection, job submission, a `job_exp.status()` call raising
mid-loop, result retrieval, or result display — is swallowed by the bare
`except:` which prints the static message and returns normally.  `none`
means the status loop is still running after `env.fuel` iterations. -/
def execute_remotely {α γ : Type} (qc : α) (draw_circuit : Bool) (env : RemoteEnv α γ) :
    Option (Except Unit (List (Ev α γ))) :=
  if draw_circuit && !env.draw_ok then
    some (Except.error ())
  else
    let tr0 : List (Ev α γ) := if draw_circuit then [Ev.draw qc] else []
    if !env.device_ok then some (Except.ok (tr0 ++ [Ev.printUnavailable]))
    else if !env.submit_ok then
      some (Except.ok (tr0 ++ [Ev.printDevice, Ev.printUnavailable]))
    else
      match waitLoopE env.status_ok env.status env.fuel 0 with
      | none => none
      | some (Except.error ltr) =>
        some (Except.ok (tr0 ++ Ev.printDevice :: ltr ++ [Ev.printUnavailable]))
      | some (Except.ok (n, ltr)) =>
        let base := tr0 ++ Ev.printDevice :: ltr ++ [Ev.printFinalStatus (env.status n)]
        if !env.result_ok then some (Except.ok (base ++ [Ev.printUnavailable]))
        else if draw_circuit then
          some (Except.ok (base ++ [Ev.printExperiment env.counts]))
        else if !env.show_ok then
          some (Except.ok (base ++ [Ev.printExperiment env.counts, Ev.printUnavailable]))
        else
          some (Except.ok (base ++ [Ev.printExperiment env.counts, Ev.show_results env.counts]))

/-- A status sequence that reports DONE from the third poll on. -/
def statusSeq : ℕ → String := fun k => if k < 2 then "RUNNING" else "DONE"

/-- A remote environment whose `draw(qc)` call raises. -/
def envDrawFails : RemoteEnv Unit Unit :=
  ⟨false, true, true, fun _ => "DONE", fun _ => true, 1, true, (), true⟩

/-- A remote environment whose device selection raises. -/
def envDeviceFails : RemoteEnv Unit Unit :=
  ⟨true, false, true, fun _ => "DONE", fun _ => true, 1, true, (), true⟩

/-- A remote environment whose second `job_exp.status()` call raises
mid-loop, while every other external call succeeds. -/
def envStatusFails : RemoteEnv Unit Unit :=
  ⟨true, true, true, fun _ => "RUNNING", fun k => decide (k < 1), 3, true, (), true⟩

/-! ## The `wine` helper (vqc_feature_map_comparison.ipynb) -/

/-- The four arrays `train_test_split(data, target, test_size=test_size,
random_state=42)` returns. -/
structure WineSplit (α β : Type) where
  sample_train : List α
  sample_test : List α
  label_train : List β
  label_test : List β

/-- Environment of the external sklearn/matplotlib calls `wine` makes.
Each `..._transform` field takes first the data its scaler/PCA was fitted
on and then the input to transform, mirroring `Fit(...).fit(a).transform(b)`;
`matplotlib_available` tells whether `import matplotlib.pyplot` succeeds. -/
structure WineEnv (α β : Type) where
  data : List α
  target : List β
  train_test_split : List α → List β → ℕ → WineSplit α β
  std_transform : List α → List α → List α
  pca_transform : ℕ → List α → List α → List α
  minmax_transform : List α → List α → List α
  matplotlib_available : Bool

/-- The split `wine` computes for a given `test_size`. -/
def wine_split {α β : Type} (env : WineEnv α β) (test_size : ℕ) : WineSplit α β :=
  env.train_test_split env.data env.target test_size

/-- The training samples after the StandardScaler, PCA and MinMaxScaler
pipeline of `wine`, before the final `[:training_size]` slice. -/
def wine_scaled_train {α β : Type} (env : WineEnv α β) (test_size n_features : ℕ) : List α :=
  let s := wine_split env test_size
  let st := env.std_transform s.sample_train s.sample_train
  let se := env.std_transform s.sample_train s.sample_test
  let pt := env.pca_transform n_features st st
  let pe := env.pca_transform n_features st se
  env.minmax_transform (pt ++ pe) pt

/-- The test samples after the same pipeline, before the final slice. -/
def wine_scaled_test {α β : Type} (env : WineEnv α β) (test_size n_features : ℕ) : List α :=
  let s := wine_split env test_size
  let st := env.std_transform s.sample_train s.sample_train
  let se := env.std_transform s.sample_train s.sample_test
  let pt := env.pca_transform n_features st st
  let pe := env.pca_transform n_features st se
  env.minmax_transform (pt ++ pe) pe

/-- `def wine(training_size, test_size, n_features, plot_data=False)` from
`vqc_feature_map_comparison.ipynb`: split, scale, slice all four arrays with
`[:training_size]`, and, when `plot_data` and matplotlib is missing, raise
`NameError('Matplotlib not installed. Please install it before plotting')`
out of the `except ImportError:` handler (the plot itself is a side effect
not recorded in the returned value). -/
def wine {α β : Type} (training_size test_size n_features : ℕ) (plot_data : Bool)
    (env : WineEnv α β) : Except String (List α × List β × List α × List β) :=
  let s := wine_split env test_size
  let sample_train := (wine_scaled_train env test_size n_features).take training_size
  let label_train := s.label_train.take training_size
  let sample_test := (wine_scaled_test env test_size n_features).take training_size
  let label_test := s.label_test.take training_size
  if plot_data && !env.matplotlib_available then
    Except.error "Matplotlib not installed. Please install it before plotting"
  else
    Except.ok (sample_train, label_train, sample_test, label_test)

/-- A concrete wine environment (identity transforms, simple split). -/
def wineEnvTest : WineEnv ℕ ℕ :=
  ⟨[10, 20, 30, 40, 50], [0, 1, 0, 1, 0],
   fun d t ts => ⟨d.drop ts, d.take ts, t.drop ts, t.take ts⟩,
   fun _ x => x, fun _ _ x => x, fun _ x => x, true⟩

/-- A concrete wine environment in which matplotlib is not installed. -/
def wineEnvNoMpl : WineEnv ℕ ℕ :=
  ⟨[10, 20, 30, 40, 50], [0, 1, 0, 1, 0],
   fun d t ts => ⟨d.drop ts, d.take ts, t.drop ts, t.take ts⟩,
   fun _ x => x, fun _ _ x => x, fun _ x => x, false⟩

/-! ## Source inventory

A syntactic catalogue of every function the repository's notebooks define,
transcribed from the source.  `sourceLines` counts the physical lines of the
`def`, from the `def` line to the last line of its body, including blank and
comment lines inside it.  `exceptHandlers` counts `try/except` handlers in
the body, `raiseStatements` counts `raise` statements, `assertStatements`
counts `assert` statements, and `definesPredicate` records whether the
function defines or checks a boolean invariant over the data it handles
(count dictionaries, arrays, density matrices).  `show_results`,
`execute_locally`, `execute_remotely` and `new_circuit` appear identically
in `w3_01.ipynb` and `IBMQ_setup.ipynb`. -/

/-- Syntactic facts about one repository-defined Python function. -/
structure RepoFun where
  name : String
  file : String
  sourceLines : ℕ
  exceptHandlers : ℕ
  raiseStatements : ℕ
  assertStatements : ℕ
  definesPredicate : Bool
deriving DecidableEq

/-- Every function defined by the repository's notebooks. -/
def repoFunctions : List RepoFun :=
  [⟨"show_results", "w3_01.ipynb", 6, 0, 0, 0, false⟩,
   ⟨"execute_locally", "w3_01.ipynb", 14, 0, 0, 0, false⟩,
   ⟨"execute_remotely", "w3_01.ipynb", 27, 1, 0, 0, false⟩,
   ⟨"new_circuit", "w3_01.ipynb", 9, 0, 0, 0, false⟩,
   ⟨"wine", "vqc_feature_map_comparison.ipynb", 36, 1, 1, 0, false⟩,
   ⟨"HS_product", "vqc_feature_map_comparison.ipynb", 2, 0, 0, 0, false⟩]

/-- The Pauli basis `[I, X, Y, Z]` of the tomography notebook. -/
def paulis : List (Matrix (Fin 2) (Fin 2) CQ) := [Id2, X, Y, Z]

/-- The exact Bell-state density matrix `|Φ+⟩⟨Φ+|`. -/
def bell_rho : Matrix (Fin 4) (Fin 4) CQ :=
  half • !![1, 0, 0, 1; 0, 0, 0, 0; 0, 0, 0, 0; 1, 0, 0, 1]

/-! ## Auxiliary lemmas -/

theorem vecEqB_sound {n : ℕ} {v w : Fin n → CQ} (h : vecEqB n v w = true) : v = w := by
  funext i
  have hall := List.all_eq_true.mp h i (List.mem_finRange i)
  exact eq_of_beq hall

theorem matEqB_sound {m n : ℕ} {A B : Matrix (Fin m) (Fin n) CQ}
    (h : matEqB m n A B = true) : A = B := by
  funext i j
  have hall := List.all_eq_true.mp h i (List.mem_finRange i)
  exact congrFun (vecEqB_sound hall) j

unseal Rat.mul Rat.add Rat.sub Rat.inv in
theorem MdgM_eval : M_dg * M = MdgM_const := matEqB_sound (by decide)

unseal Rat.mul Rat.add Rat.sub Rat.inv in
theorem inv_MdgM_left : inv_MdgM * MdgM_const = 1 := matEqB_sound (by decide)

unseal Rat.mul Rat.add Rat.sub Rat.inv in
theorem inv_MdgM_right : MdgM_const * inv_MdgM = 1 := matEqB_sound (by decide)

/-- The one-qubit linear-inversion matrix is an exact left inverse of `M`. -/
theorem L1_mul_M : linear_inversion_matrix * M = 1 := by
  rw [linear_inversion_matrix, Matrix.mul_assoc, MdgM_eval, inv_MdgM_left]

set_option maxRecDepth 4000 in
unseal Rat.mul Rat.add Rat.sub Rat.inv in
theorem M2_kron :
    M_2 = (Matrix.kroneckerMap (· * ·) M M).submatrix rowIdx colIdx :=
  matEqB_sound (by decide)

set_option maxRecDepth 4000 in
unseal Rat.mul Rat.add Rat.sub Rat.inv in
theorem Mdg2_kron :
    M_dg_2 = (Matrix.kroneckerMap (· * ·) M_dg M_dg).submatrix colIdx rowIdx :=
  matEqB_sound (by decide)

theorem MdgM_2_kron_eval :
    M_dg_2 * M_2 =
      (Matrix.kroneckerMap (· * ·) MdgM_const MdgM_const).submatrix colIdx colIdx := by
  rw [M2_kron, Mdg2_kron, Matrix.submatrix_mul_equiv, ← Matrix.mul_kronecker_mul,
    MdgM_eval]

theorem inv_MdgM_2_left : inv_MdgM_2 * (M_dg_2 * M_2) = 1 := by
  rw [MdgM_2_kron_eval, inv_MdgM_2, Matrix.submatrix_mul_equiv,
    ← Matrix.mul_kronecker_mul, inv_MdgM_left, Matrix.one_kronecker_one,
    Matrix.submatrix_one_equiv]

theorem inv_MdgM_2_right : (M_dg_2 * M_2) * inv_MdgM_2 = 1 := by
  rw [MdgM_2_kron_eval, inv_MdgM_2, Matrix.submatrix_mul_equiv,
    ← Matrix.mul_kronecker_mul, inv_MdgM_right, Matrix.one_kronecker_one,
    Matrix.submatrix_one_equiv]

/-- The two-qubit linear-inversion matrix is an exact left inverse of `M_2`. -/
theorem L2_mul_M2 : linear_inversion_matrix_2 * M_2 = 1 := by
  rw [linear_inversion_matrix_2, Matrix.mul_assoc, inv_MdgM_2_left]

theorem waitLoop_go {α γ : Type} (status : ℕ → String) :
    ∀ (fuel lapse n : ℕ) (tr : List (Ev α γ)),
      waitLoop status fuel lapse = some (n, tr) →
      lapse ≤ n ∧ status n = "DONE" ∧
        (∀ k, lapse ≤ k → k < n → status k ≠ "DONE") ∧
        tr = (List.range' lapse (n - lapse)).flatMap
          (fun k => [Ev.printStatus (10 * k) (status k), Ev.sleep 10]) := by
  intro fuel
  induction fuel with
  | zero => intro lapse n tr h; simp [waitLoop] at h
  | succ fuel ih =>
    intro lapse n tr h
    unfold waitLoop at h
    by_cases hd : status lapse = "DONE"
    · rw [if_pos hd] at h
      have hn2 : lapse = n := congrArg Prod.fst (Option.some.inj h)
      have htr2 : tr = [] := (congrArg Prod.snd (Option.some.inj h)).symm
      subst hn2
      refine ⟨le_refl _, hd, ?_, ?_⟩
      · intro k h1 h2; omega
      · simp [htr2]
    · rw [if_neg hd] at h
      cases hw : waitLoop status fuel (lapse + 1) with
      | none => rw [hw] at h; exact absurd h (by simp)
      | some p =>
        obtain ⟨m, tr2⟩ := p
        rw [hw] at h
        have hn : m = n := congrArg Prod.fst (Option.some.inj h)
        subst hn
        have htr : tr = Ev.printStatus (10 * lapse) (status lapse) :: Ev.sleep 10 :: tr2 :=
          (congrArg Prod.snd (Option.some.inj h)).symm
        obtain ⟨hle, hdone, hmid, htr2⟩ := ih (lapse + 1) m tr2 hw
        refine ⟨by omega, hdone, ?_, ?_⟩
        · intro k h1 h2
          rcases Nat.eq_or_lt_of_le h1 with h3 | h3
          · exact h3 ▸ hd
          · exact hmid k h3 h2
        · have hr : m - lapse = (m - (lapse + 1)) + 1 := by omega
          rw [htr, htr2, hr, List.range'_succ]
          simp

theorem waitLoop_none {α γ : Type} (status : ℕ → String)
    (hnd : ∀ k, status k ≠ "DONE") :
    ∀ (fuel lapse : ℕ), @waitLoop α γ status fuel lapse = none := by
  intro fuel
  induction fuel with
  | zero => intro lapse; rfl
  | succ fuel ih =>
    intro lapse
    unfold waitLoop
    rw [if_neg (hnd lapse), ih (lapse + 1)]

theorem waitLoopE_agrees {α γ : Type} (status : ℕ → String) :
    ∀ (fuel lapse : ℕ),
      @waitLoopE α γ (fun _ => true) status fuel lapse =
        Option.map Except.ok (waitLoop status fuel lapse) := by
  intro fuel
  induction fuel with
  | zero => intro lapse; rfl
  | succ fuel ih =>
    intro lapse
    unfold waitLoopE waitLoop
    rw [if_neg (by simp)]
    by_cases hd : status lapse = "DONE"
    · rw [if_pos hd, if_pos hd]
      rfl
    · rw [if_neg hd, if_neg hd, ih (lapse + 1)]
      cases waitLoop status fuel (lapse + 1) with
      | none => rfl
      | some p => obtain ⟨n, tr⟩ := p; rfl

theorem reshape4_flatten4 (A : Matrix (Fin 4) (Fin 4) CQ) :
    reshape4 (flatten4 A) = A := by
  funext i j
  show A ⟨(4 * i.val + j.val) / 4, _⟩ ⟨(4 * i.val + j.val) % 4, _⟩ = A i j
  have hi : (4 * i.val + j.val) / 4 = i.val := by omega
  have hj : (4 * i.val + j.val) % 4 = j.val := by omega
  congr 1
  · exact Fin.ext hi
  · exact Fin.ext hj

theorem wine_scaled_congr {α β : Type} (env : WineEnv α β) (ts1 ts2 n : ℕ)
    (h : wine_split env ts1 = wine_split env ts2) :
    wine_scaled_train env ts1 n = wine_scaled_train env ts2 n ∧
      wine_scaled_test env ts1 n = wine_scaled_test env ts2 n := by
  unfold wine_scaled_train wine_scaled_test
  rw [h]
  exact ⟨rfl, rfl⟩


theorem getLast?_append_right {δ : Type} (l1 l2 : List δ) (z : δ)
    (h : l2.getLast? = some z) : (l1 ++ l2).getLast? = some z := by
  cases l2 with
  | nil => simp at h
  | cons b t => rw [List.getLast?_append_cons]; exact h

theorem getLast?_cons_right {δ : Type} (a : δ) (l : List δ) (z : δ)
    (h : l.getLast? = some z) : (a :: l).getLast? = some z :=
  getLast?_append_right [a] l z h

/-! ## Claims -/


/-- C1: for every remote job submitted by `execute_remotely`, the wait loop
re-checks the job's status on a fixed 10-second interval (sleeping 10
seconds between polls and incrementing a lapse counter) and exits only when
the status name equals DONE; no other status ever exits the loop, and there
is no cancellation, retry limit, or backoff: when no poll ever reports DONE
the loop never exits, for any observation bound. -/
theorem execute_remotely_poll_loop :
    (∀ (status : ℕ → String) (fuel n : ℕ) (tr : List (Ev Unit Unit)),
        waitLoop status fuel 0 = some (n, tr) →
        status n = "DONE" ∧ (∀ k, k < n → status k ≠ "DONE") ∧
          tr = (List.range n).flatMap
            (fun k => [Ev.printStatus (10 * k) (status k), Ev.sleep 10])) ∧
    (∀ (status : ℕ → String), (∀ k, status k ≠ "DONE") →
        ∀ (fuel lapse : ℕ), @waitLoop Unit Unit status fuel lapse = none) := by
  constructor
  · intro status fuel n tr h
    obtain ⟨h0, hdone, hmid, htr⟩ := waitLoop_go status fuel 0 n tr h
    refine ⟨hdone, fun k hk => hmid k (Nat.zero_le k) hk, ?_⟩
    rw [htr, List.range_eq_range']
    simp
  · intro status hnd fuel lapse
    exact waitLoop_none status hnd fuel lapse

/-- Witness for C1, at the concrete status sequence RUNNING, RUNNING, DONE
with observation bound 5: the loop exits at the third poll having slept 10
seconds after each of the two non-DONE polls. -/
theorem execute_remotely_poll_loop_witness :
    statusSeq 2 = "DONE" ∧ (∀ k, k < 2 → statusSeq k ≠ "DONE") ∧
      ([Ev.printStatus (10 * 0) (statusSeq 0), Ev.sleep 10,
        Ev.printStatus (10 * 1) (statusSeq 1), Ev.sleep 10] : List (Ev Unit Unit)) =
        (List.range 2).flatMap
          (fun k => [Ev.printStatus (10 * k) (statusSeq k), Ev.sleep 10]) :=
  execute_remotely_poll_loop.1 statusSeq 5 2
    [Ev.printStatus (10 * 0) (statusSeq 0), Ev.sleep 10,
     Ev.printStatus (10 * 1) (statusSeq 1), Ev.sleep 10] (by decide)

/-- C2 counterexample: with `draw_circuit = True` and a `draw(qc)` call that
raises, `execute_remotely` propagates the exception to its caller — the
drawing happens before the `try:` block, so the catch-all does not cover it
and no message is printed. -/
theorem execute_remotely_draw_raises :
    execute_remotely () true envDrawFails = some (Except.error ()) := rfl

/-- C2 (amended): provided the initial `draw(qc)` does not raise (in
particular whenever `draw_circuit` is false), `execute_remotely` returns
normally, and any failure of the steps inside the `try:` block — device
selection, job submission, a `job_exp.status()` call raising during the
polling loop, result retrieval, or result display — ends the trace with the
static message print instead of propagating. -/
theorem execute_remotely_catchall {α γ : Type} (qc : α) (dc : Bool)
    (env : RemoteEnv α γ) (hdraw : dc = true → env.draw_ok = true)
    (r : Except Unit (List (Ev α γ)))
    (h : execute_remotely qc dc env = some r) :
    ∃ tr, r = Except.ok tr ∧
      ((env.device_ok = true ∧ env.submit_ok = true ∧ env.result_ok = true ∧
          (dc = true ∨ env.show_ok = true) ∧
          (∃ (n : ℕ) (ltr : List (Ev α γ)),
            waitLoopE env.status_ok env.status env.fuel 0 =
              some (Except.ok (n, ltr)))) ∨
        tr.getLast? = some Ev.printUnavailable) := by
  unfold execute_remotely at h
  have hnotdraw : (dc && !env.draw_ok) = false := by
    cases dc
    · rfl
    · rw [hdraw rfl]; rfl
  rw [hnotdraw] at h
  simp only [Bool.false_eq_true, if_false] at h
  cases hdev : env.device_ok with
  | false =>
    rw [hdev] at h
    simp only [Bool.not_false, if_true] at h
    exact ⟨_, (Option.some.inj h).symm, Or.inr (getLast?_append_right _ _ _ rfl)⟩
  | true =>
    rw [hdev] at h
    simp only [Bool.not_true, Bool.false_eq_true, if_false] at h
    cases hsub : env.submit_ok with
    | false =>
      rw [hsub] at h
      simp only [Bool.not_false, if_true] at h
      exact ⟨_, (Option.some.inj h).symm, Or.inr (getLast?_append_right _ _ _ rfl)⟩
    | true =>
      rw [hsub] at h
      simp only [Bool.not_true, Bool.false_eq_true, if_false] at h
      cases hw : waitLoopE env.status_ok env.status env.fuel 0 with
      | none => rw [hw] at h; exact absurd h (by simp)
      | some p =>
        rw [hw] at h
        cases p with
        | error ltr =>
          refine ⟨_, (Option.some.inj h).symm, Or.inr ?_⟩
          apply getLast?_append_right
          rfl
        | ok p2 =>
          obtain ⟨n, ltr⟩ := p2
          cases hres : env.result_ok with
          | false =>
            rw [hres] at h
            simp only [Bool.not_false, if_true] at h
            exact ⟨_, (Option.some.inj h).symm, Or.inr (getLast?_append_right _ _ _ rfl)⟩
          | true =>
            rw [hres] at h
            simp only [Bool.not_true, Bool.false_eq_true, if_false] at h
            cases dc with
            | true =>
              simp only [if_true] at h
              exact ⟨_, (Option.some.inj h).symm,
                Or.inl ⟨rfl, rfl, rfl, Or.inl rfl, ⟨n, ltr, rfl⟩⟩⟩
            | false =>
              simp only [Bool.false_eq_true, if_false] at h
              cases hshow : env.show_ok with
              | false =>
                rw [hshow] at h
                simp only [Bool.not_false, if_true] at h
                exact ⟨_, (Option.some.inj h).symm, Or.inr (getLast?_append_right _ _ _ rfl)⟩
              | true =>
                rw [hshow] at h
                simp only [Bool.not_true, Bool.false_eq_true, if_false] at h
                exact ⟨_, (Option.some.inj h).symm,
                  Or.inl ⟨rfl, rfl, rfl, Or.inr rfl, ⟨n, ltr, rfl⟩⟩⟩

/-- Witness for C2 (amended), at a concrete environment whose second
`job_exp.status()` call raises mid-loop with `draw_circuit = False`: the
exception escapes the while loop into the bare `except:`, the call returns
normally, and the trace ends with the static message. -/
theorem execute_remotely_catchall_witness :
    ∃ tr : List (Ev Unit Unit),
      (Except.ok [Ev.printDevice, Ev.printStatus 0 "RUNNING", Ev.sleep 10,
          Ev.printUnavailable] : Except Unit (List (Ev Unit Unit))) = Except.ok tr ∧
      ((envStatusFails.device_ok = true ∧ envStatusFails.submit_ok = true ∧
          envStatusFails.result_ok = true ∧
          (false = true ∨ envStatusFails.show_ok = true) ∧
          (∃ (n : ℕ) (ltr : List (Ev Unit Unit)),
            waitLoopE envStatusFails.status_ok envStatusFails.status
              envStatusFails.fuel 0 = some (Except.ok (n, ltr)))) ∨
        tr.getLast? = some Ev.printUnavailable) :=
  execute_remotely_catchall () false envStatusFails (fun hc => by cases hc)
    (Except.ok [Ev.printDevice, Ev.printStatus 0 "RUNNING", Ev.sleep 10,
      Ev.printUnavailable]) rfl

/-- C3 counterexample: `wine` also handles and raises exceptions.  With
`plot_data = True` and matplotlib missing, its `except ImportError:` handler
deliberately raises `NameError('Matplotlib not installed. Please install it
before plotting')`, so the catch-all in `execute_remotely` is not the only
error handling in the repository. -/
theorem wine_raises_on_missing_matplotlib :
    wine 1 1 1 true wineEnvNoMpl =
      Except.error "Matplotlib not installed. Please install it before plotting" := rfl

/-- C3 (amended): the repository contains exactly two exception-handling
sites — the bare catch-all in `execute_remotely` and the `ImportError`
handler in `wine` — and exactly one deliberate raise, the `NameError` in
`wine`; no other repository-defined function handles or raises. -/
theorem repo_error_handling_sites :
    (repoFunctions.filter (fun f => decide (0 < f.exceptHandlers))).map RepoFun.name =
      ["execute_remotely", "wine"] ∧
    (repoFunctions.filter (fun f => decide (0 < f.raiseStatements))).map RepoFun.name =
      ["wine"] := by decide

unseal Rat.mul Rat.add Rat.sub Rat.inv in
/-- C4 counterexample: `HS_product`, a function defined by the repository,
computes its result as a deterministic function of its inputs, with
concrete testable values: the Hilbert-Schmidt product of `X` with itself is
1 and with `Z` is 0. -/
theorem HS_product_deterministic_values :
    HS_product X X = 1 ∧ HS_product X Z = 0 := by decide

unseal Rat.mul Rat.add Rat.sub Rat.inv in
/-- C4 (amended): the notebooks do define deterministic, testable logic of
their own: `HS_product` is a pure function, and on the Pauli basis
`[I, X, Y, Z]` it returns the orthonormality table — 1 on equal matrices,
0 on distinct ones. -/
theorem HS_product_pauli_orthonormal :
    ∀ i j : Fin 4,
      HS_product (paulis.get (Fin.cast (by rfl) i)) (paulis.get (Fin.cast (by rfl) j)) =
        if i = j then 1 else 0 := by decide

/-- C6: the repository defines no predicate (and no assert) over its
transient data — count dictionaries, arrays, density matrices; every
function it defines is a computation, none checks an invariant. -/
theorem repo_defines_no_invariant_predicate :
    repoFunctions.all (fun f => !f.definesPredicate && f.assertStatements == 0) = true := by
  decide

/-- C7 counterexample: the notebooks define a sixth helper, `HS_product`,
beyond the five the claim lists, and two of the helpers are not under 20
lines: `execute_remotely` (27 source lines) and `wine` (36 source lines). -/
theorem helper_inventory_counterexample :
    "HS_product" ∈ repoFunctions.map RepoFun.name ∧
    (repoFunctions.filter (fun f => decide (20 ≤ f.sourceLines))).map RepoFun.name =
      ["execute_remotely", "wine"] := by decide

/-- C7 (amended): the repository's own code consists exactly of
`show_results`, `execute_locally`, `execute_remotely`, `new_circuit`,
`wine` and `HS_product`; each is at most 36 source lines, and all but
`execute_remotely` (27 lines) and `wine` (36 lines) are under 20. -/
theorem helper_inventory_amended :
    repoFunctions.map RepoFun.name =
      ["show_results", "execute_locally", "execute_remotely", "new_circuit",
       "wine", "HS_product"] ∧
    repoFunctions.all (fun f => decide (f.sourceLines ≤ 36)) = true ∧
    (repoFunctions.filter (fun f => decide (f.sourceLines < 20))).map RepoFun.name =
      ["show_results", "execute_locally", "new_circuit", "HS_product"] := by decide

/-- C8: `wine` truncates the returned test samples and test labels with
`[:training_size]` — not `[:test_size]` — so the number of returned test
rows never exceeds `training_size`, and the result depends on the requested
`test_size` only through the initial train/test split. -/
theorem wine_test_truncated {α β : Type} (training_size test_size n_features : ℕ)
    (pd : Bool) (env : WineEnv α β) (r : List α × List β × List α × List β)
    (h : wine training_size test_size n_features pd env = Except.ok r) :
    r.2.2.1 = (wine_scaled_test env test_size n_features).take training_size ∧
    r.2.2.2 = (wine_split env test_size).label_test.take training_size ∧
    r.2.2.1.length ≤ training_size ∧ r.2.2.2.length ≤ training_size ∧
    (∀ ts2 : ℕ, wine_split env ts2 = wine_split env test_size →
      wine training_size ts2 n_features pd env =
        wine training_size test_size n_features pd env) := by
  unfold wine at h
  by_cases hp : (pd && !env.matplotlib_available) = true
  · rw [if_pos hp] at h
    exact absurd h (by simp)
  · rw [if_neg hp] at h
    have hr := Except.ok.inj h
    subst hr
    refine ⟨rfl, rfl, List.length_take_le _ _, List.length_take_le _ _, ?_⟩
    intro ts2 hts
    obtain ⟨h1, h2⟩ := wine_scaled_congr env ts2 test_size n_features hts
    unfold wine
    rw [hts, h1, h2]

/-- Witness for C8 at a concrete environment: requesting `training_size = 2`
and `test_size = 3` returns only 2 test rows. -/
theorem wine_test_truncated_witness :
    ([10, 20] : List ℕ) = (wine_scaled_test wineEnvTest 3 1).take 2 ∧
    ([0, 1] : List ℕ) = (wine_split wineEnvTest 3).label_test.take 2 ∧
    ([10, 20] : List ℕ).length ≤ 2 ∧ ([0, 1] : List ℕ).length ≤ 2 ∧
    (∀ ts2 : ℕ, wine_split wineEnvTest ts2 = wine_split wineEnvTest 3 →
      wine 2 ts2 1 false wineEnvTest = wine 2 3 1 false wineEnvTest) :=
  wine_test_truncated 2 3 1 false wineEnvTest ([40, 50], [1, 0], [10, 20], [0, 1]) rfl

/-- C10: `execute_locally` always prints the simulation result and counts
first, then performs exactly one display action: it draws the circuit iff
`draw_circuit` is true and shows the result histogram iff `draw_circuit` is
false — never both. -/
theorem execute_locally_display_dichotomy {α γ : Type} (qc : α) (dc : Bool)
    (env : LocalEnv α γ) :
    (execute_locally qc dc env).head? =
      some (Ev.printSimulation (env.get_counts qc)) ∧
    (Ev.draw qc ∈ execute_locally qc dc env ↔ dc = true) ∧
    (Ev.show_results (env.get_counts qc) ∈ execute_locally qc dc env ↔ dc = false) ∧
    ¬(Ev.draw qc ∈ execute_locally qc dc env ∧
      Ev.show_results (env.get_counts qc) ∈ execute_locally qc dc env) := by
  cases dc <;> simp [execute_locally]

/-- C5 counterexample: the repository's tomography code does carry out a
tomographic linear-inversion reconstruction of its own: applied to the
exact probability vector `M_2 @ rho.flatten()` of the Bell state, the
repository-built `linear_inversion_matrix_2` recovers the Bell density
matrix exactly after the `np.reshape(..., (4, 4))` step — all objects
involved (`projectors_2`, `M_2`, `linear_inversion_matrix_2`, the reshape)
are built by repository code. -/
theorem linear_inversion_reconstructs_bell :
    reshape4 (Matrix.mulVec linear_inversion_matrix_2
      (Matrix.mulVec M_2 (flatten4 bell_rho))) = bell_rho := by
  rw [Matrix.mulVec_mulVec, L2_mul_M2, Matrix.one_mulVec, reshape4_flatten4]

/-- C5 (amended): statevector simulation, device queuing, optimization, PCA
and classification are delegated to third-party libraries, but the
repository does implement one piece of linear algebra of its own: the
tomographic linear-inversion reconstruction (building `M`/`M_2` from the
projectors, forming `(M†M)⁻¹M†`, and reshaping the recovered vector into a
density matrix), which recovers every density matrix exactly from its exact
probability vector. -/
theorem linear_inversion_reconstructs (rho : Matrix (Fin 4) (Fin 4) CQ) :
    reshape4 (Matrix.mulVec linear_inversion_matrix_2
      (Matrix.mulVec M_2 (flatten4 rho))) = rho := by
  rw [Matrix.mulVec_mulVec, L2_mul_M2, Matrix.one_mulVec, reshape4_flatten4]

/-- C9: the one-qubit linear-inversion matrix `(M†M)⁻¹M†` built from the six
stacked flattened Pauli projectors is an exact left inverse of `M`, and the
two-qubit matrix built from the 36 tensor-product projectors is an exact
left inverse of `M_2`, over exact arithmetic; hence linear inversion exactly
recovers any flattened density matrix from its exact probability vector. -/
theorem linear_inversion_left_inverse :
    linear_inversion_matrix * M = 1 ∧ linear_inversion_matrix_2 * M_2 = 1 ∧
    (∀ v : Fin 4 → CQ,
      Matrix.mulVec linear_inversion_matrix (Matrix.mulVec M v) = v) ∧
    (∀ v : Fin 16 → CQ,
      Matrix.mulVec linear_inversion_matrix_2 (Matrix.mulVec M_2 v) = v) := by
  refine ⟨L1_mul_M, L2_mul_M2, fun v => ?_, fun v => ?_⟩
  · rw [Matrix.mulVec_mulVec, L1_mul_M, Matrix.one_mulVec]
  · rw [Matrix.mulVec_mulVec, L2_mul_M2, Matrix.one_mulVec]
